import Mathlib

/-!
Verification of the radome routing and backend-resolution layer.

The TypeScript sources are embedded shallowly: JavaScript strings are
`List Char`, `string | undefined` / `string | null` values are `Option`,
and the impure pieces (the Kubernetes client, the wall clock, the
in-memory `Map`) are made explicit as parameters.  JavaScript semantic
quirks that the code relies on (`??` versus `||`, falsiness of `""` and
`0`, `slice(0, -0)` returning the empty string) are mirrored exactly.
-/

/-- JavaScript strings, modelled as lists of characters. -/
abbrev Str := List Char

/-- `s.toLowerCase()` for the ASCII strings handled here. -/
def jsToLower (s : Str) : Str := s.map Char.toLower

/-- `host.split(":")[0]`: everything before the first colon. -/
def jsStripPort (host : Str) : Str := host.takeWhile (fun c => decide (c ≠ ':'))

/-- `extractSubdomain` from `src/proxy.ts` (identical in the path-routing and
tunnel variants): strip any `:port`, lower-case, require the host to end in
the lower-cased base domain preceded by exactly one `.`, and return the
non-empty label before that dot.  `slice(0, -len)` with `len = 0` yields the
empty string in JavaScript (`-0 === 0`), which the `if nb.length = 0` branch
mirrors. -/
def extractSubdomain (host base : Str) : Option Str :=
  let nh := jsToLower (jsStripPort host)
  let nb := jsToLower base
  if nb <:+ nh then
    let pre := if nb.length = 0 then ([] : Str) else nh.take (nh.length - nb.length)
    if ['.'] <:+ pre then
      let sub := pre.dropLast
      if sub = [] then none else some sub
    else none
  else none

/-- C2: for every host of the form `<label>.<base>` (compared after stripping
any `:port` suffix and lower-casing, with a non-empty label), `extractSubdomain`
returns the lower-cased label; for the bare base domain, or any host not ending
in `.<base>`, it returns `none`. -/
theorem extractSubdomain_spec (host base : Str) (hbase : base ≠ []) :
    (∀ l : Str, l ≠ [] →
        jsToLower (jsStripPort host) = l ++ '.' :: jsToLower base →
        extractSubdomain host base = some l)
    ∧ (jsToLower (jsStripPort host) = jsToLower base →
        extractSubdomain host base = none)
    ∧ (¬ ('.' :: jsToLower base <:+ jsToLower (jsStripPort host)) →
        extractSubdomain host base = none) := by
  refine ⟨?_, ?_, ?_⟩
  · intro l hl hEq
    have hnb : jsToLower base ≠ [] := by
      cases base with
      | nil => exact absurd rfl hbase
      | cons c cs => simp [jsToLower]
    have hsuf : jsToLower base <:+ jsToLower (jsStripPort host) :=
      ⟨l ++ ['.'], by simp [hEq]⟩
    have hlen : (jsToLower (jsStripPort host)).length - (jsToLower base).length
        = l.length + 1 := by
      rw [hEq]; simp; omega
    have htake : (jsToLower (jsStripPort host)).take (l.length + 1) = l ++ ['.'] := by
      rw [hEq]
      have h1 : l ++ '.' :: jsToLower base = (l ++ ['.']) ++ jsToLower base := by simp
      rw [h1]
      have h2 : l.length + 1 = (l ++ ['.']).length := by simp
      rw [h2, List.take_left]
    have hnb0 : (jsToLower base).length ≠ 0 := by
      simpa using hnb
    have hdot : ['.'] <:+ l ++ ['.'] := ⟨l, rfl⟩
    simp only [extractSubdomain, hsuf, if_true, hnb0, if_neg, hlen, htake]
    simp [hnb0, hlen, htake, hdot, List.dropLast_concat, hl]
  · intro hEq
    have hsuf : jsToLower base <:+ jsToLower (jsStripPort host) := hEq ▸ List.suffix_refl _
    simp only [extractSubdomain, hsuf, if_true]
    rcases Nat.eq_zero_or_pos (jsToLower base).length with h0 | hpos
    · simp [h0, hEq, List.suffix_nil]
    · have : (jsToLower base).length ≠ 0 := Nat.pos_iff_ne_zero.mp hpos
      simp [this, hEq, List.suffix_nil]
  · intro hnsuf
    unfold extractSubdomain
    simp only []
    split
    case isFalse => rfl
    case isTrue hsuf =>
      rcases Nat.eq_zero_or_pos (jsToLower base).length with h0 | hpos
      · rw [if_pos h0]
        simp [List.suffix_nil]
      · have hne : (jsToLower base).length ≠ 0 := Nat.pos_iff_ne_zero.mp hpos
        rw [if_neg hne]
        have hnd : ¬ (['.'] <:+ (jsToLower (jsStripPort host)).take
            ((jsToLower (jsStripPort host)).length - (jsToLower base).length)) := by
          intro hdot
          apply hnsuf
          obtain ⟨t, ht⟩ := hsuf
          have hlt : t.length =
              (jsToLower (jsStripPort host)).length - (jsToLower base).length := by
            rw [← ht]; simp
          have htake : (jsToLower (jsStripPort host)).take
              ((jsToLower (jsStripPort host)).length - (jsToLower base).length) = t := by
            rw [← hlt, ← ht, List.take_left]
          rw [htake] at hdot
          obtain ⟨t', ht'⟩ := hdot
          refine ⟨t', ?_⟩
          rw [← ht, ← ht']
          simp
        rw [if_neg hnd]

/-- Witness for `extractSubdomain_spec` at concrete inputs. -/
theorem extractSubdomain_spec_witness :
    extractSubdomain (("abc123.Radome.Local:80").toList) (("radome.local").toList)
      = some (("abc123").toList)
    ∧ extractSubdomain (("radome.local").toList) (("radome.local").toList) = none
    ∧ extractSubdomain (("other.example.com").toList) (("radome.local").toList) = none := by
  refine ⟨?_, ?_, ?_⟩
  · exact (extractSubdomain_spec (("abc123.Radome.Local:80").toList)
      (("radome.local").toList) (by decide)).1 (("abc123").toList) (by decide) (by decide)
  · exact (extractSubdomain_spec (("radome.local").toList)
      (("radome.local").toList) (by decide)).2.1 (by decide)
  · exact (extractSubdomain_spec (("other.example.com").toList)
      (("radome.local").toList) (by decide)).2.2 (by decide)

/-- Characters that terminate neither the URL path nor the query:
`new URL(...)` splits the request target at the first `?` (query) and `#`
(fragment). -/
def urlKeepChar (c : Char) : Bool := decide (c ≠ '?' ∧ c ≠ '#')

/-- `new URL(reqUrl, base).pathname` for an origin-form request target. -/
def jsUrlPathname (u : Str) : Str := u.takeWhile urlKeepChar

/-- The part of the request target after the path (starts with `?` or `#`). -/
def jsUrlAfterPath (u : Str) : Str := u.dropWhile urlKeepChar

/-- `new URL(reqUrl, base).search`: the query including its leading `?`, or the
empty string when the query is empty; the fragment is excluded. -/
def jsUrlSearch (u : Str) : Str :=
  match jsUrlAfterPath u with
  | '?' :: rest =>
    let q := rest.takeWhile (fun c => decide (c ≠ '#'))
    if q = [] then [] else '?' :: q
  | _ => []

/-- The literal path prefix of the regex `^\/instances\/([^/]+)(\/.*)?$`. -/
def instancesRoot : Str := ("/instances/").toList

/-- The regex match of `extractInstancePath`: `^\/instances\/([^/]+)(\/.*)?$`
applied to the parsed pathname; group 1 is the maximal non-empty run without
`/`, group 2 the rest (empty when absent, else starting with `/`). -/
def matchInstancePath (pathname : Str) : Option (Str × Str) :=
  if instancesRoot <+: pathname then
    let tailPart := pathname.drop instancesRoot.length
    let instanceId := tailPart.takeWhile (fun c => decide (c ≠ '/'))
    let restPath := tailPart.dropWhile (fun c => decide (c ≠ '/'))
    if instanceId = [] then none else some (instanceId, restPath)
  else none

/-- `extractInstancePath` from the path-routing proxy variants: `null` for a
missing or empty `req.url` (both are falsy), else regex-match the parsed
pathname and return the instance id together with
`` `${restPath}${parsed.search}` `` where `restPath` defaults to `/`. -/
def extractInstancePath (reqUrl : Option Str) : Option (Str × Str) :=
  match reqUrl with
  | none => none
  | some u =>
    if u = [] then none
    else
      match matchInstancePath (jsUrlPathname u) with
      | none => none
      | some (instanceId, restPath) =>
        some (instanceId, (if restPath = [] then ['/'] else restPath) ++ jsUrlSearch u)

/-- `const instanceId = subdomain ?? instancePath?.instanceId ?? null` from
`startProxy` (both the path-routing and the tunnel variant). -/
def selectInstanceId (host : Str) (url : Option Str) (base : Str) : Option Str :=
  match extractSubdomain host base with
  | some s => some s
  | none => (extractInstancePath url).map Prod.fst

theorem takeWhile_append_sat {α : Type} (p : α → Bool) (l₁ l₂ : List α)
    (h₁ : ∀ a ∈ l₁, p a = true)
    (h₂ : ∀ b t, l₂ = b :: t → p b = false) :
    (l₁ ++ l₂).takeWhile p = l₁ := by
  induction l₁ with
  | nil =>
    cases l₂ with
    | nil => rfl
    | cons b t => simp [List.takeWhile_cons, h₂ b t rfl]
  | cons a l ih =>
    have ha : p a = true := h₁ a (by simp)
    simp only [List.cons_append, List.takeWhile_cons, ha, if_true]
    rw [ih (fun x hx => h₁ x (by simp [hx]))]

theorem dropWhile_append_sat {α : Type} (p : α → Bool) (l₁ l₂ : List α)
    (h₁ : ∀ a ∈ l₁, p a = true)
    (h₂ : ∀ b t, l₂ = b :: t → p b = false) :
    (l₁ ++ l₂).dropWhile p = l₂ := by
  induction l₁ with
  | nil =>
    cases l₂ with
    | nil => rfl
    | cons b t => simp [List.dropWhile_cons, h₂ b t rfl]
  | cons a l ih =>
    have ha : p a = true := h₁ a (by simp)
    simp only [List.cons_append, List.dropWhile_cons, ha, if_true]
    exact ih (fun x hx => h₁ x (by simp [hx]))

theorem pred_of_mem_takeWhile {α : Type} {p : α → Bool} {l : List α} {a : α}
    (h : a ∈ l.takeWhile p) : p a = true := by
  induction l with
  | nil => simp at h
  | cons b t ih =>
    cases hb : p b with
    | true =>
      rw [List.takeWhile_cons, if_pos hb] at h
      rcases List.mem_cons.mp h with h1 | h2
      · exact h1 ▸ hb
      · exact ih h2
    | false =>
      rw [List.takeWhile_cons, if_neg (by simp [hb])] at h
      simp at h

theorem mem_of_mem_takeWhile {α : Type} {p : α → Bool} {l : List α} {a : α}
    (h : a ∈ l.takeWhile p) : a ∈ l := by
  induction l with
  | nil => simp at h
  | cons b t ih =>
    cases hb : p b with
    | true =>
      rw [List.takeWhile_cons, if_pos hb] at h
      rcases List.mem_cons.mp h with h1 | h2
      · simp [h1]
      · simp [ih h2]
    | false =>
      rw [List.takeWhile_cons, if_neg (by simp [hb])] at h
      simp at h

theorem mem_of_mem_dropWhile {α : Type} {p : α → Bool} {l : List α} {a : α}
    (h : a ∈ l.dropWhile p) : a ∈ l := by
  induction l with
  | nil => simp at h
  | cons b t ih =>
    cases hb : p b with
    | true =>
      rw [List.dropWhile_cons, if_pos hb] at h
      simp [ih h]
    | false =>
      rw [List.dropWhile_cons, if_neg (by simp [hb])] at h
      exact h

theorem head_false_of_dropWhile {α : Type} {p : α → Bool} {l : List α} {b : α}
    {t : List α} (h : l.dropWhile p = b :: t) : p b = false := by
  induction l with
  | nil => simp at h
  | cons a l' ih =>
    cases ha : p a with
    | true =>
      rw [List.dropWhile_cons, if_pos ha] at h
      exact ih h
    | false =>
      rw [List.dropWhile_cons, if_neg (by simp [ha])] at h
      cases h
      exact ha

/-- The request-target characters on which the WHATWG URL parser used by
`new URL` is the identity on path and query (no percent-encoding, no
backslash conversion). -/
abbrev urlPlainChar (c : Char) : Prop :=
  c.isAlphanum = true ∨ c ∈ (['/', '?', '#', '.', '-', '_', '~', '=', '&'] : List Char)

/-- Paths free of `.` and `..` segments, on which the WHATWG URL parser
performs no dot-segment normalization. -/
abbrev dotSegmentFree (p : Str) : Prop :=
  ¬ ((("/./").toList) <:+: p) ∧ ¬ ((("/../").toList) <:+: p)
  ∧ ¬ ((("/.").toList) <:+ p) ∧ ¬ ((("/..").toList) <:+ p)

/-- C3: for every request URL whose path is `/instances/<id>` or
`/instances/<id>/<rest>`, `extractInstancePath` returns that id and the
rewritten path `/<rest>` (defaulting to `/`), preserving the query string;
conversely a path candidate is only produced by URLs of that shape.  The
hypotheses restrict inputs to origin-form request targets on which the URL
parser is the identity (no dot segments, plain characters). -/
theorem extractInstancePath_spec :
    (∀ id rest q : Str,
      id ≠ [] → (∀ c ∈ id, c ≠ '/' ∧ c ≠ '?' ∧ c ≠ '#') →
      id ≠ ((".").toList) → id ≠ (("..").toList) →
      (rest = [] ∨ ∃ r, rest = '/' :: r) → (∀ c ∈ rest, c ≠ '?' ∧ c ≠ '#') →
      dotSegmentFree rest →
      (q = [] ∨ ∃ s, q = '?' :: s ∧ s ≠ [] ∧ ∀ c ∈ s, c ≠ '#') →
      extractInstancePath (some (instancesRoot ++ id ++ rest ++ q)) =
        some (id, (if rest = [] then ['/'] else rest) ++ q))
    ∧ (∀ (u : Str) (pr : Str × Str),
      u.head? = some '/' → (∀ c ∈ u, urlPlainChar c) → dotSegmentFree u →
      extractInstancePath (some u) = some pr →
      ∃ id rest q : Str,
        u = instancesRoot ++ id ++ rest ++ q ∧ id ≠ [] ∧
        (∀ c ∈ id, c ≠ '/' ∧ c ≠ '?' ∧ c ≠ '#') ∧
        (rest = [] ∨ ∃ r, rest = '/' :: r) ∧ (∀ c ∈ rest, c ≠ '?' ∧ c ≠ '#') ∧
        (q = [] ∨ ∃ s, q = '?' :: s ∨ q = '#' :: s) ∧
        pr = (id, (if rest = [] then ['/'] else rest) ++ jsUrlSearch u)) := by
  constructor
  · intro id rest q hid hidc _ _ hrest hrestc _ hq
    have hAll : ∀ c ∈ (instancesRoot ++ id) ++ rest, urlKeepChar c = true := by
      intro c hc
      rcases List.mem_append.mp hc with hc1 | hc2
      · rcases List.mem_append.mp hc1 with hr | hi
        · revert hr
          have : ∀ c ∈ instancesRoot, urlKeepChar c = true := by decide
          exact this c
        · simp [urlKeepChar, (hidc c hi).2.1, (hidc c hi).2.2]
      · simp [urlKeepChar, (hrestc c hc2).1, (hrestc c hc2).2]
    have hQhead : ∀ b t, q = b :: t → urlKeepChar b = false := by
      intro b t hbt
      rcases hq with h0 | ⟨s, hqs, _, _⟩
      · rw [h0] at hbt; exact absurd hbt (by simp)
      · rw [hqs] at hbt
        cases hbt
        decide
    have hpathname :
        jsUrlPathname (((instancesRoot ++ id) ++ rest) ++ q) = (instancesRoot ++ id) ++ rest :=
      takeWhile_append_sat _ _ _ hAll hQhead
    have hafter :
        jsUrlAfterPath (((instancesRoot ++ id) ++ rest) ++ q) = q :=
      dropWhile_append_sat _ _ _ hAll hQhead
    have hsearch : jsUrlSearch (((instancesRoot ++ id) ++ rest) ++ q) = q := by
      unfold jsUrlSearch
      rw [hafter]
      rcases hq with h0 | ⟨s, hqs, hsne, hsc⟩
      · rw [h0]
      · rw [hqs]
        have hts : s.takeWhile (fun c => decide (c ≠ '#')) = s := by
          have := takeWhile_append_sat (fun c => decide (c ≠ '#')) s []
            (fun a ha => by simp [hsc a ha]) (fun b t h => by simp at h)
          simpa using this
        show (if s.takeWhile (fun c => decide (c ≠ '#')) = [] then []
            else '?' :: s.takeWhile (fun c => decide (c ≠ '#'))) = '?' :: s
        rw [hts, if_neg hsne]
    have hne : ((instancesRoot ++ id) ++ rest) ++ q ≠ [] := by
      intro h
      have h2 := List.append_eq_nil.mp h
      have h3 := List.append_eq_nil.mp h2.1
      have h4 := List.append_eq_nil.mp h3.1
      exact absurd h4.1 (by decide)
    have hmatch : matchInstancePath ((instancesRoot ++ id) ++ rest) = some (id, rest) := by
      unfold matchInstancePath
      have hpre : instancesRoot <+: (instancesRoot ++ id) ++ rest := ⟨id ++ rest, by simp⟩
      rw [if_pos hpre]
      have hdrop : ((instancesRoot ++ id) ++ rest).drop instancesRoot.length = id ++ rest := by
        rw [List.append_assoc, List.drop_left]
      simp only [hdrop]
      have hidc' : ∀ a ∈ id, (fun c => decide (c ≠ '/')) a = true := fun a ha => by
        simp [(hidc a ha).1]
      have hrh : ∀ b t, rest = b :: t → (fun c => decide (c ≠ '/')) b = false := by
        intro b t hbt
        rcases hrest with h0 | ⟨r, hr⟩
        · rw [h0] at hbt; exact absurd hbt (by simp)
        · rw [hr] at hbt
          cases hbt
          simp
      rw [takeWhile_append_sat _ _ _ hidc' hrh, dropWhile_append_sat _ _ _ hidc' hrh,
        if_neg hid]
    show extractInstancePath (some (((instancesRoot ++ id) ++ rest) ++ q)) = _
    simp only [extractInstancePath]
    rw [if_neg hne, hpathname, hmatch]
    simp only [hsearch]
  · intro u pr _ _ _ hres
    by_cases hu : u = []
    · rw [hu] at hres
      simp [extractInstancePath] at hres
    · simp only [extractInstancePath] at hres
      rw [if_neg hu] at hres
      cases hm : matchInstancePath (jsUrlPathname u) with
      | none => rw [hm] at hres; simp at hres
      | some pair =>
        obtain ⟨idv, restv⟩ := pair
        rw [hm] at hres
        unfold matchInstancePath at hm
        by_cases hpre : instancesRoot <+: jsUrlPathname u
        · rw [if_pos hpre] at hm
          obtain ⟨t, ht⟩ := hpre
          have hdrop : (jsUrlPathname u).drop instancesRoot.length = t := by
            rw [← ht, List.drop_left]
          rw [hdrop] at hm
          by_cases hidnil : t.takeWhile (fun c => decide (c ≠ '/')) = []
          · rw [if_pos hidnil] at hm; exact absurd hm (by simp)
          · rw [if_neg hidnil] at hm
            have hm' := Option.some.inj hm
            have hidv : idv = t.takeWhile (fun c => decide (c ≠ '/')) := by
              have := congrArg Prod.fst hm'; simpa using this.symm
            have hrestv : restv = t.dropWhile (fun c => decide (c ≠ '/')) := by
              have := congrArg Prod.snd hm'; simpa using this.symm
            refine ⟨idv, restv, jsUrlAfterPath u, ?_, ?_, ?_, ?_, ?_, ?_, ?_⟩
            · have hsplit : jsUrlPathname u ++ jsUrlAfterPath u = u :=
                List.takeWhile_append_dropWhile _ _
              have htir : idv ++ restv = t := by
                rw [hidv, hrestv]; exact List.takeWhile_append_dropWhile _ _
              calc u = jsUrlPathname u ++ jsUrlAfterPath u := hsplit.symm
                _ = (instancesRoot ++ t) ++ jsUrlAfterPath u := by rw [ht]
                _ = (instancesRoot ++ (idv ++ restv)) ++ jsUrlAfterPath u := by rw [htir]
                _ = instancesRoot ++ idv ++ restv ++ jsUrlAfterPath u := by
                    simp [List.append_assoc]
            · rw [hidv]; exact hidnil
            · intro c hc
              rw [hidv] at hc
              have hslash : c ≠ '/' := by
                have := pred_of_mem_takeWhile hc
                simpa using this
              have hmemt : c ∈ t := mem_of_mem_takeWhile hc
              have hmempath : c ∈ jsUrlPathname u := by
                rw [← ht]; exact List.mem_append.mpr (Or.inr hmemt)
              have hkeep := pred_of_mem_takeWhile hmempath
              have h2 : c ≠ '?' ∧ c ≠ '#' := by simpa [urlKeepChar] using hkeep
              exact ⟨hslash, h2.1, h2.2⟩
            · cases hre : restv with
              | nil => exact Or.inl rfl
              | cons b t' =>
                have hb : (fun c => decide (c ≠ '/')) b = false :=
                  head_false_of_dropWhile (p := fun c => decide (c ≠ '/')) (l := t)
                    (by rw [← hrestv, hre])
                have : b = '/' := by simpa using hb
                exact Or.inr ⟨t', by rw [this]⟩
            · intro c hc
              rw [hrestv] at hc
              have hmemt : c ∈ t := mem_of_mem_dropWhile hc
              have hmempath : c ∈ jsUrlPathname u := by
                rw [← ht]; exact List.mem_append.mpr (Or.inr hmemt)
              have hkeep := pred_of_mem_takeWhile hmempath
              simpa [urlKeepChar] using hkeep
            · cases hqe : jsUrlAfterPath u with
              | nil => exact Or.inl rfl
              | cons b t' =>
                have hb : urlKeepChar b = false := head_false_of_dropWhile hqe
                have : b = '?' ∨ b = '#' := by
                  by_contra hcon
                  push_neg at hcon
                  simp [urlKeepChar, hcon.1, hcon.2] at hb
                rcases this with h | h
                · exact Or.inr ⟨t', Or.inl (by rw [h])⟩
                · exact Or.inr ⟨t', Or.inr (by rw [h])⟩
            · have := Option.some.inj hres
              exact this.symm
        · rw [if_neg hpre] at hm
          exact absurd hm (by simp)

/-- Witness for `extractInstancePath_spec`: the concrete request target
`/instances/xyz/foo?q=1`. -/
theorem extractInstancePath_spec_witness :
    extractInstancePath
        (some (instancesRoot ++ (("xyz").toList) ++ (("/foo").toList) ++ (("?q=1").toList)))
      = some ((("xyz").toList),
          (if (("/foo").toList : Str) = [] then ['/'] else (("/foo").toList))
            ++ (("?q=1").toList)) :=
  extractInstancePath_spec.1 (("xyz").toList) (("/foo").toList) (("?q=1").toList)
    (by decide) (by decide) (by decide) (by decide)
    (Or.inr ⟨(("foo").toList), by decide⟩) (by decide) (by decide)
    (Or.inr ⟨(("q=1").toList), by decide, by decide, by decide⟩)

/-- C1 counterexample: host `a.radome.local` with request path `/instances/b/x`.
The path candidate `b` is found, yet the resolver
(`subdomain ?? instancePath?.instanceId ?? null`) selects the subdomain
candidate `a`, so the path candidate does not take precedence. -/
theorem selectInstanceId_path_precedence_cex :
    selectInstanceId (("a.radome.local").toList) (some (("/instances/b/x").toList))
        (("radome.local").toList) = some (("a").toList)
    ∧ (extractInstancePath (some (("/instances/b/x").toList))).map Prod.fst
        = some (("b").toList)
    ∧ (("a").toList) ≠ (("b").toList) := by
  refine ⟨by decide, by decide, by decide⟩

/-- C1 (amended): when both candidates are present the subdomain candidate
wins; the path candidate is used only when no subdomain candidate is found. -/
theorem selectInstanceId_subdomain_first (host : Str) (url : Option Str) (base : Str) :
    (∀ s : Str, extractSubdomain host base = some s →
      selectInstanceId host url base = some s)
    ∧ (extractSubdomain host base = none →
      selectInstanceId host url base = (extractInstancePath url).map Prod.fst) := by
  constructor
  · intro s hs
    simp [selectInstanceId, hs]
  · intro hs
    simp [selectInstanceId, hs]

/-- Witness for `selectInstanceId_subdomain_first` at concrete inputs. -/
theorem selectInstanceId_subdomain_first_witness :
    selectInstanceId (("a.radome.local").toList) (some (("/instances/b/x").toList))
        (("radome.local").toList) = some (("a").toList)
    ∧ selectInstanceId (("localhost").toList) (some (("/instances/b/x").toList))
        (("radome.local").toList)
      = (extractInstancePath (some (("/instances/b/x").toList))).map Prod.fst := by
  constructor
  · exact (selectInstanceId_subdomain_first (("a.radome.local").toList)
      (some (("/instances/b/x").toList)) (("radome.local").toList)).1
      (("a").toList) (by decide)
  · exact (selectInstanceId_subdomain_first (("localhost").toList)
      (some (("/instances/b/x").toList)) (("radome.local").toList)).2 (by decide)

/-- Lifecycle status of an instance (`InstanceStatus` in `src/instances.ts`). -/
inductive InstanceStatus where
  | starting
  | running
  | stopped
  | error
deriving DecidableEq, Repr

/-- `InstanceRecord` from `src/instances.ts`.  The TypeScript field
`namespace` is a reserved word in Lean and is called `nspace` here;
`statusMessage` and `name` are the optional fields of the record. -/
structure InstanceRecord where
  id : Str
  image : Str
  dockerHubUrl : Str
  containerPort : Nat
  nspace : Str
  deploymentName : Str
  serviceName : Str
  serviceHost : Str
  createdAt : Str
  status : InstanceStatus
  statusMessage : Option Str
  name : Option Str
deriving DecidableEq, Repr

/-- The observable decision of one inbound proxy request: either an immediate
response (`res.statusCode` / `res.end(body)`) or a forwarded upstream request
(`proxy.web` target and the final `req.url`). -/
inductive ProxyOutcome where
  | respond : Nat → Str → ProxyOutcome
  | forward : Str → Option Str → ProxyOutcome
deriving DecidableEq, Repr

/-- The request handler of `startProxy` in the path-routing (direct cluster)
variant: resolve the identifier from the `Host` header
(`req.headers.host ?? ""`) and the URL, answer `400` / `404` when resolution
or the directory lookup fails, otherwise rewrite `req.url` for a path match
and forward to `` `http://${instance.serviceHost}:${instance.containerPort}` ``. -/
def handleProxyRequest (lookup : Str → Option InstanceRecord) (baseDomain : Str)
    (host url : Option Str) : ProxyOutcome :=
  match selectInstanceId (host.getD []) url baseDomain with
  | none =>
    .respond 400 (("Missing instance identifier in subdomain or /instances/:id path.").toList)
  | some instanceId =>
    match lookup instanceId with
    | none => .respond 404 (("Instance not found.").toList)
    | some inst =>
      .forward
        ((("http://").toList) ++ inst.serviceHost ++ [':']
          ++ ((Nat.repr inst.containerPort).toList))
        (match extractInstancePath url with
         | some ip => some ip.2
         | none => url)

/-- The error callback passed to `proxy.web`: a transport failure answers
`502` with body `` `Proxy error: ${err?.message ?? "unknown"}` ``. -/
def proxyErrorResponse (errMessage : Option Str) : ProxyOutcome :=
  .respond 502 ((("Proxy error: ").toList) ++ errMessage.getD (("unknown").toList))

/-- C9: a request with no resolvable identifier is answered `400`; a resolved
identifier missing from the directory is answered `404` with no upstream
request; a transport failure while forwarding is answered `502` with body
`Proxy error: <message>`. -/
theorem handleProxyRequest_errors (lookup : Str → Option InstanceRecord)
    (baseDomain : Str) (host url : Option Str) :
    (selectInstanceId (host.getD []) url baseDomain = none →
      handleProxyRequest lookup baseDomain host url
        = .respond 400 (("Missing instance identifier in subdomain or /instances/:id path.").toList))
    ∧ (∀ id : Str, selectInstanceId (host.getD []) url baseDomain = some id →
        lookup id = none →
        handleProxyRequest lookup baseDomain host url
          = .respond 404 (("Instance not found.").toList)
        ∧ ∀ (target : Str) (u : Option Str),
            handleProxyRequest lookup baseDomain host url ≠ .forward target u)
    ∧ (∀ msg : Str, proxyErrorResponse (some msg)
        = .respond 502 ((("Proxy error: ").toList) ++ msg)) := by
  refine ⟨?_, ?_, ?_⟩
  · intro h
    simp [handleProxyRequest, h]
  · intro id hid hlook
    constructor
    · simp [handleProxyRequest, hid, hlook]
    · intro target u
      simp [handleProxyRequest, hid, hlook]
  · intro msg
    simp [proxyErrorResponse]

/-- Witness for `handleProxyRequest_errors`: an empty directory answers `400`
for a bare host and `404` for a known-shaped but unknown id. -/
theorem handleProxyRequest_errors_witness :
    handleProxyRequest (fun _ => none) (("radome.local").toList)
        (some (("radome.local").toList)) (some (("/").toList))
      = .respond 400 (("Missing instance identifier in subdomain or /instances/:id path.").toList)
    ∧ handleProxyRequest (fun _ => none) (("radome.local").toList)
        (some (("a.radome.local").toList)) (some (("/").toList))
      = .respond 404 (("Instance not found.").toList) := by
  constructor
  · exact (handleProxyRequest_errors (fun _ => none) (("radome.local").toList)
      (some (("radome.local").toList)) (some (("/").toList))).1 (by decide)
  · exact ((handleProxyRequest_errors (fun _ => none) (("radome.local").toList)
      (some (("a.radome.local").toList)) (some (("/").toList))).2.1
      (("a").toList) (by decide) rfl).1

/-- The template literal
`` `/api/v1/namespaces/${instance.namespace}/services/${instance.serviceName}:${instance.containerPort}/proxy` ``
from `buildKubeServicePath` in the tunnel-mode proxy variant. -/
def kubeProxyBasePath (inst : InstanceRecord) : Str :=
  (("/api/v1/namespaces/").toList) ++ inst.nspace ++ (("/services/").toList)
    ++ inst.serviceName ++ [':'] ++ ((Nat.repr inst.containerPort).toList)
    ++ (("/proxy").toList)

/-- `buildKubeServicePath` from the tunnel-mode proxy variant (its `instance`
parameter is called `instanceRec`, `instance` being reserved in Lean):
`null` when no instance is given; otherwise `requestUrl ?? "/"` normalized to start with `/`
and appended to the API-server service-proxy base path (with `/` itself mapped
to a trailing `/`). -/
def buildKubeServicePath (instanceRec : Option InstanceRecord) (requestUrl : Option Str) :
    Option Str :=
  match instanceRec with
  | none => none
  | some inst =>
    let path := requestUrl.getD ['/']
    let normalizedPath := if path.head? = some '/' then path else '/' :: path
    some (kubeProxyBasePath inst
      ++ (if normalizedPath = ['/'] then ['/'] else normalizedPath))

/-- The request handler of `startProxy` in the tunnel (`apiserver`) variant:
identifier resolution and directory lookup as in the direct variant, then the
rewritten `req.url` is wrapped into the API-server service-proxy path and the
request is forwarded to the Kubernetes API server. -/
def handleProxyRequestTunnel (kubeApiServer : Str)
    (lookup : Str → Option InstanceRecord) (baseDomain : Str)
    (host url : Option Str) : ProxyOutcome :=
  match selectInstanceId (host.getD []) url baseDomain with
  | none =>
    .respond 400 (("Missing instance identifier in subdomain or /instances/:id path.").toList)
  | some instanceId =>
    match lookup instanceId with
    | none => .respond 404 (("Instance not found.").toList)
    | some inst =>
      match buildKubeServicePath (some inst)
          (match extractInstancePath url with
           | some ip => some ip.2
           | none => url) with
      | none => .respond 500 (("Unable to build Kubernetes proxy path.").toList)
      | some kubePath => .forward kubeApiServer (some kubePath)

/-- The instance of the C4 scenario: id `xyz`, namespace `ns`, service
`radome-agent-xyz`, container port `3000`. -/
def instXyz : InstanceRecord :=
  { id := ("xyz").toList
    image := ("img").toList
    dockerHubUrl := ("img").toList
    containerPort := 3000
    nspace := ("ns").toList
    deploymentName := ("radome-agent-xyz").toList
    serviceName := ("radome-agent-xyz").toList
    serviceHost := ("radome-agent-xyz.ns.svc.cluster.local").toList
    createdAt := ("t0").toList
    status := .running
    statusMessage := none
    name := none }

/-- C4: in tunnel mode the upstream path is the service-proxy base path
followed by the rewritten client path normalized to start with `/`; a missing,
empty or `/` client path maps to the base path with a trailing `/`; end to
end, `/instances/xyz/foo?q=1` reaches the API server as
`/api/v1/namespaces/ns/services/radome-agent-xyz:3000/proxy/foo?q=1`. -/
theorem buildKubeServicePath_spec :
    (∀ (inst : InstanceRecord) (p : Str),
      buildKubeServicePath (some inst) (some p)
        = some (kubeProxyBasePath inst ++ (if p.head? = some '/' then p else '/' :: p)))
    ∧ (∀ inst : InstanceRecord,
        buildKubeServicePath (some inst) none = some (kubeProxyBasePath inst ++ ['/'])
        ∧ buildKubeServicePath (some inst) (some []) = some (kubeProxyBasePath inst ++ ['/'])
        ∧ buildKubeServicePath (some inst) (some ['/'])
            = some (kubeProxyBasePath inst ++ ['/']))
    ∧ handleProxyRequestTunnel (("https://kube.example").toList)
        (fun i => if i = ("xyz").toList then some instXyz else none)
        (("radome.local").toList) (some (("localhost").toList))
        (some (("/instances/xyz/foo?q=1").toList))
      = .forward (("https://kube.example").toList)
          (some (("/api/v1/namespaces/ns/services/radome-agent-xyz:3000/proxy/foo?q=1").toList)) := by
  have hch : ∀ l : Str, (if l = ['/'] then (['/'] : Str) else l) = l := by
    intro l
    by_cases h : l = ['/'] <;> simp [h]
  refine ⟨?_, ?_, ?_⟩
  · intro inst p
    simp only [buildKubeServicePath, Option.getD_some, hch]
  · intro inst
    exact ⟨rfl, rfl, rfl⟩
  · decide

/-- Witness for `buildKubeServicePath_spec` at a concrete rewritten path. -/
theorem buildKubeServicePath_spec_witness :
    buildKubeServicePath (some instXyz) (some (("/foo?q=1").toList))
      = some (kubeProxyBasePath instXyz
          ++ (if (("/foo?q=1").toList : Str).head? = some '/' then (("/foo?q=1").toList)
              else '/' :: (("/foo?q=1").toList))) :=
  buildKubeServicePath_spec.1 instXyz (("/foo?q=1").toList)

/-- Modelled from the spec: the Response Rewriter of §4.5 is not present in
the sources under `src/` (only the tunnel-mode dispatcher is); per the spec it
tests whether the `Location` value's path starts with the upstream base path
used for this request, and if so replaces that base with the client-visible
base path, preserving query string and fragment and rewriting an empty
resulting path to `/`; a non-matching location is left unmodified. -/
def rewriteLocation (upstreamBase clientBase location : Str) : Str :=
  let locPath := location.takeWhile urlKeepChar
  let locTail := location.dropWhile urlKeepChar
  if upstreamBase <+: locPath then
    let newPath := clientBase ++ locPath.drop upstreamBase.length
    (if newPath = [] then ['/'] else newPath) ++ locTail
  else location

/-- C5: a `Location` whose path is `<upstreamBase><suffix>` rewrites to
`<clientBase><suffix>` with query string and fragment preserved, an empty
resulting path becoming `/`; applying the inverse base substitution to the
rewritten value reproduces the original upstream path. -/
theorem rewriteLocation_round_trip :
    (∀ upstreamBase clientBase suffix tail : Str,
      (∀ c ∈ upstreamBase, c ≠ '?' ∧ c ≠ '#') →
      (∀ c ∈ clientBase, c ≠ '?' ∧ c ≠ '#') →
      (∀ c ∈ suffix, c ≠ '?' ∧ c ≠ '#') →
      (tail = [] ∨ ∃ t, tail = '?' :: t ∨ tail = '#' :: t) →
      clientBase ++ suffix ≠ [] →
      rewriteLocation upstreamBase clientBase ((upstreamBase ++ suffix) ++ tail)
        = (clientBase ++ suffix) ++ tail
      ∧ (upstreamBase ++ suffix ≠ [] →
          rewriteLocation clientBase upstreamBase
              (rewriteLocation upstreamBase clientBase ((upstreamBase ++ suffix) ++ tail))
            = (upstreamBase ++ suffix) ++ tail))
    ∧ (∀ upstreamBase tail : Str,
      (∀ c ∈ upstreamBase, c ≠ '?' ∧ c ≠ '#') →
      (tail = [] ∨ ∃ t, tail = '?' :: t ∨ tail = '#' :: t) →
      rewriteLocation upstreamBase [] (upstreamBase ++ tail) = '/' :: tail) := by
  have keepOf : ∀ (l : Str), (∀ c ∈ l, c ≠ '?' ∧ c ≠ '#') →
      ∀ c ∈ l, urlKeepChar c = true := by
    intro l h c hc
    simp [urlKeepChar, (h c hc).1, (h c hc).2]
  have tailHead : ∀ (tail : Str), (tail = [] ∨ ∃ t, tail = '?' :: t ∨ tail = '#' :: t) →
      ∀ b t, tail = b :: t → urlKeepChar b = false := by
    intro tail htail b t hbt
    rcases htail with h0 | ⟨t', ht'⟩
    · rw [h0] at hbt; exact absurd hbt (by simp)
    · rcases ht' with h | h <;> rw [h] at hbt <;> cases hbt <;> decide
  have core : ∀ upstreamBase clientBase suffix tail : Str,
      (∀ c ∈ upstreamBase, c ≠ '?' ∧ c ≠ '#') →
      (∀ c ∈ suffix, c ≠ '?' ∧ c ≠ '#') →
      (tail = [] ∨ ∃ t, tail = '?' :: t ∨ tail = '#' :: t) →
      rewriteLocation upstreamBase clientBase ((upstreamBase ++ suffix) ++ tail)
        = (if clientBase ++ suffix = [] then ['/'] else clientBase ++ suffix) ++ tail := by
    intro upstreamBase clientBase suffix tail hub hsuf htail
    have hAll : ∀ c ∈ upstreamBase ++ suffix, urlKeepChar c = true := by
      intro c hc
      rcases List.mem_append.mp hc with h | h
      · exact keepOf _ hub c h
      · exact keepOf _ hsuf c h
    have hpath : ((upstreamBase ++ suffix) ++ tail).takeWhile urlKeepChar
        = upstreamBase ++ suffix :=
      takeWhile_append_sat _ _ _ hAll (tailHead tail htail)
    have htl : ((upstreamBase ++ suffix) ++ tail).dropWhile urlKeepChar = tail :=
      dropWhile_append_sat _ _ _ hAll (tailHead tail htail)
    have hpre : upstreamBase <+: upstreamBase ++ suffix := ⟨suffix, rfl⟩
    have hdrop : (upstreamBase ++ suffix).drop upstreamBase.length = suffix :=
      List.drop_left _ _
    simp only [rewriteLocation, hpath, htl, hpre, if_pos, hdrop]
  constructor
  · intro upstreamBase clientBase suffix tail hub hcb hsuf htail hne
    have h1 := core upstreamBase clientBase suffix tail hub hsuf htail
    rw [if_neg hne] at h1
    refine ⟨h1, ?_⟩
    intro hne2
    rw [h1]
    have h2 := core clientBase upstreamBase suffix tail hcb hsuf htail
    rw [if_neg hne2] at h2
    exact h2
  · intro upstreamBase tail hub htail
    have h1 := core upstreamBase [] [] tail hub (by intro c hc; simp at hc) htail
    simpa using h1

/-- Witness for `rewriteLocation_round_trip`: the spec scenario — upstream
base `/api/v1/namespaces/ns/services/radome-agent-xyz:3000/proxy`, client
base `/instances/xyz`, suffix `/bar`. -/
theorem rewriteLocation_round_trip_witness :
    rewriteLocation
        (("/api/v1/namespaces/ns/services/radome-agent-xyz:3000/proxy").toList)
        (("/instances/xyz").toList)
        (((("/api/v1/namespaces/ns/services/radome-agent-xyz:3000/proxy").toList)
            ++ (("/bar").toList)) ++ ([] : Str))
      = ((("/instances/xyz").toList) ++ (("/bar").toList)) ++ ([] : Str) :=
  ((rewriteLocation_round_trip.1
    (("/api/v1/namespaces/ns/services/radome-agent-xyz:3000/proxy").toList)
    (("/instances/xyz").toList) (("/bar").toList) ([] : Str)
    (by decide) (by decide) (by decide) (Or.inl rfl) (by decide))).1

/-- JavaScript `a || b` on `string | undefined` values: an absent or empty
(falsy) left operand yields the right operand. -/
def jsOrStr (a b : Option Str) : Option Str :=
  match a with
  | some s => if s = [] then b else some s
  | none => b

/-- `V1ContainerStateWaiting`: the `reason` and `message` fields read by
`deriveStatusFromPod`. -/
structure ContainerStateWaiting where
  reason : Option Str
  message : Option Str
deriving DecidableEq, Repr

/-- `V1ContainerState`: only its `waiting` field is read. -/
structure ContainerState where
  waiting : Option ContainerStateWaiting
deriving DecidableEq, Repr

/-- `V1ContainerStatus`: the `ready` flag and the optional `state`. -/
structure ContainerStatus where
  ready : Bool
  state : Option ContainerState
deriving DecidableEq, Repr

/-- `V1PodStatus`: the fields read by `deriveStatusFromPod`. -/
structure PodStatus where
  phase : Option Str
  message : Option Str
  reason : Option Str
  containerStatuses : Option (List ContainerStatus)
deriving DecidableEq, Repr

/-- `V1Pod`, reduced to the `status` subtree read by `deriveStatusFromPod`. -/
structure V1Pod where
  status : Option PodStatus
deriving DecidableEq, Repr

/-- `pod.status?.phase ?? "Pending"`. -/
def podPhase (pod : V1Pod) : Str :=
  (pod.status.bind PodStatus.phase).getD (("Pending").toList)

/-- `pod.status?.message || pod.status?.reason || undefined`. -/
def podLevelMessage (pod : V1Pod) : Option Str :=
  jsOrStr (pod.status.bind PodStatus.message)
    (jsOrStr (pod.status.bind PodStatus.reason) none)

/-- `pod.status?.containerStatuses ?? []`. -/
def podContainerStatuses (pod : V1Pod) : List ContainerStatus :=
  (pod.status.bind PodStatus.containerStatuses).getD []

/-- `containerStatuses.map((status) => status.state?.waiting).find(Boolean)`:
the first defined waiting state among the container statuses. -/
def podWaitingState (pod : V1Pod) : Option ContainerStateWaiting :=
  (podContainerStatuses pod).findSome? (fun s => s.state.bind ContainerState.waiting)

/-- `waitingState?.reason`. -/
def podWaitingReason (pod : V1Pod) : Option Str :=
  (podWaitingState pod).bind ContainerStateWaiting.reason

/-- `waitingState?.message`. -/
def podWaitingMessage (pod : V1Pod) : Option Str :=
  (podWaitingState pod).bind ContainerStateWaiting.message

/-- The image-pull failure reasons recognized by `deriveStatusFromPod`. -/
def imagePullReasons : List Str :=
  [("ErrImagePull").toList, ("ImagePullBackOff").toList, ("InvalidImageName").toList]

/-- `waitingReason && [...].includes(waitingReason)` (an empty string is falsy
and is also not in the list, so the two checks coincide). -/
def isImagePullError (r : Option Str) : Bool :=
  match r with
  | some s => decide (s ∈ imagePullReasons)
  | none => false

/-- `deriveStatusFromPod` from `src/instances.ts`: a pure function of the pod
phase and container statuses producing the lifecycle status and an optional
diagnostic message. -/
def deriveStatusFromPod (pod : V1Pod) : InstanceStatus × Option Str :=
  if isImagePullError (podWaitingReason pod) then
    (.error, jsOrStr (podWaitingMessage pod) (podWaitingReason pod))
  else if podPhase pod = ("Failed").toList then
    (.error, podLevelMessage pod)
  else if podPhase pod = ("Succeeded").toList then
    (.stopped, podLevelMessage pod)
  else if podPhase pod = ("Running").toList then
    (if decide (podContainerStatuses pod ≠ [])
        && (podContainerStatuses pod).all ContainerStatus.ready
     then .running else .starting,
     jsOrStr (podWaitingMessage pod) (podLevelMessage pod))
  else
    (.starting, jsOrStr (podWaitingMessage pod) (podLevelMessage pod))

/-- A pod whose first waiting container state has a benign reason while a
later container waits with `ImagePullBackOff`.  Fields in constructor order:
phase, message, reason, containerStatuses; each container status is
(ready, state). -/
def podLaterBackOff : V1Pod :=
  ⟨some ⟨some (("Running").toList), none, none,
    some [⟨false, some ⟨some ⟨some (("ContainerCreating").toList), none⟩⟩⟩,
          ⟨false, some ⟨some ⟨some (("ImagePullBackOff").toList), none⟩⟩⟩]⟩⟩

/-- A running pod with an empty container status list. -/
def podRunningNoStatuses : V1Pod :=
  ⟨some ⟨some (("Running").toList), none, none, some []⟩⟩

/-- C6 counterexample.  First: a pod has a container waiting with reason
`ImagePullBackOff`, yet `deriveStatusFromPod` yields `starting`, because the
code inspects only the *first* waiting state found (here `ContainerCreating`),
not every container.  Second: a `Running` pod with an empty container status
list yields `starting` even though all (zero) of its container statuses report
ready, because the code additionally requires the list to be non-empty. -/
theorem deriveStatusFromPod_cex :
    ((deriveStatusFromPod podLaterBackOff).1 = .starting
      ∧ (podContainerStatuses podLaterBackOff).any
          (fun s => decide ((s.state.bind ContainerState.waiting).bind
            ContainerStateWaiting.reason = some (("ImagePullBackOff").toList))) = true)
    ∧ ((deriveStatusFromPod podRunningNoStatuses).1 = .starting
      ∧ podPhase podRunningNoStatuses = ("Running").toList
      ∧ (podContainerStatuses podRunningNoStatuses).all ContainerStatus.ready = true) := by
  refine ⟨⟨by decide, by decide⟩, by decide, by decide, by decide⟩

/-- C6 (amended): `deriveStatusFromPod` is a pure function of pod phase and
container statuses.  If the *first* waiting state found among the container
statuses has reason `ErrImagePull`, `ImagePullBackOff` or `InvalidImageName`,
the status is `error` (message = waiting message or reason) regardless of
phase; otherwise phase `Failed` derives `error`, `Succeeded` derives
`stopped`, `Running` derives `running` exactly when the container status list
is non-empty and every entry reports ready (`starting` otherwise), and any
other phase derives `starting`. -/
theorem deriveStatusFromPod_spec (pod : V1Pod) :
    (isImagePullError (podWaitingReason pod) = true →
      deriveStatusFromPod pod
        = (.error, jsOrStr (podWaitingMessage pod) (podWaitingReason pod)))
    ∧ (isImagePullError (podWaitingReason pod) = false →
      (podPhase pod = ("Failed").toList →
        deriveStatusFromPod pod = (.error, podLevelMessage pod))
      ∧ (podPhase pod = ("Succeeded").toList →
        deriveStatusFromPod pod = (.stopped, podLevelMessage pod))
      ∧ (podPhase pod = ("Running").toList →
          podContainerStatuses pod ≠ [] →
          (podContainerStatuses pod).all ContainerStatus.ready = true →
          deriveStatusFromPod pod
            = (.running, jsOrStr (podWaitingMessage pod) (podLevelMessage pod)))
      ∧ (podPhase pod = ("Running").toList →
          (podContainerStatuses pod = []
            ∨ (podContainerStatuses pod).all ContainerStatus.ready = false) →
          deriveStatusFromPod pod
            = (.starting, jsOrStr (podWaitingMessage pod) (podLevelMessage pod)))
      ∧ (podPhase pod ≠ ("Failed").toList → podPhase pod ≠ ("Succeeded").toList →
          podPhase pod ≠ ("Running").toList →
          deriveStatusFromPod pod
            = (.starting, jsOrStr (podWaitingMessage pod) (podLevelMessage pod)))) := by
  constructor
  · intro h
    simp [deriveStatusFromPod, h]
  · intro h
    have hFS : (("Succeeded").toList : Str) ≠ ("Failed").toList := by decide
    have hRF : (("Running").toList : Str) ≠ ("Failed").toList := by decide
    have hRS : (("Running").toList : Str) ≠ ("Succeeded").toList := by decide
    refine ⟨?_, ?_, ?_, ?_, ?_⟩
    · intro hp
      simp [deriveStatusFromPod, h, hp]
    · intro hp
      rw [deriveStatusFromPod]
      rw [if_neg (by simp [h]), if_neg (by rw [hp]; exact hFS), if_pos hp]
    · intro hp hne hall
      rw [deriveStatusFromPod]
      rw [if_neg (by simp [h]), if_neg (by rw [hp]; exact hRF),
        if_neg (by rw [hp]; exact hRS), if_pos hp]
      simp [hne, hall]
    · intro hp hcase
      rw [deriveStatusFromPod]
      rw [if_neg (by simp [h]), if_neg (by rw [hp]; exact hRF),
        if_neg (by rw [hp]; exact hRS), if_pos hp]
      rcases hcase with h0 | hfalse
      · simp [h0]
      · simp [hfalse]
    · intro h1 h2 h3
      rw [deriveStatusFromPod]
      rw [if_neg (by simp [h]), if_neg h1, if_neg h2, if_neg h3]

/-- A pending pod whose single container waits with `ImagePullBackOff`. -/
def podBackOff : V1Pod :=
  ⟨some ⟨some (("Pending").toList), none, none,
    some [⟨false, some ⟨some ⟨some (("ImagePullBackOff").toList),
      some (("pull failed").toList)⟩⟩⟩]⟩⟩

/-- A running pod with two containers, both ready. -/
def podRunningReady : V1Pod :=
  ⟨some ⟨some (("Running").toList), none, none,
    some [⟨true, none⟩, ⟨true, none⟩]⟩⟩

/-- Witness for `deriveStatusFromPod_spec`: an `ImagePullBackOff` pod derives
`error`; a running pod with two ready containers derives `running`. -/
theorem deriveStatusFromPod_spec_witness :
    deriveStatusFromPod podBackOff
      = (.error, jsOrStr (podWaitingMessage podBackOff) (podWaitingReason podBackOff))
    ∧ deriveStatusFromPod podRunningReady
      = (.running,
          jsOrStr (podWaitingMessage podRunningReady) (podLevelMessage podRunningReady)) := by
  constructor
  · exact (deriveStatusFromPod_spec podBackOff).1 (by decide)
  · exact ((deriveStatusFromPod_spec podRunningReady).2 (by decide)).2.2.1
      (by decide) (by decide) (by decide)

/-- JavaScript `a ?? b` on optional values: only `null`/`undefined` (here
`none`) falls through; an empty string does not. -/
def jsNn {α : Type} (a b : Option α) : Option α :=
  match a with
  | some x => some x
  | none => b

/-- Key lookup in a `Record<string, string>`, modelled as an association
list with unique keys. -/
def lookupAssoc (m : List (Str × Str)) (k : Str) : Option Str :=
  (m.find? (fun p => decide (p.1 = k))).map Prod.snd

/-- The label key `radome.instance`. -/
def instanceLabelKey : Str := ("radome.instance").toList

/-- The annotation key `radome.name`. -/
def instanceNameAnnotation : Str := ("radome.name").toList

/-- `V1ObjectMeta`, reduced to the fields the directory reads.  The TypeScript
field `namespace` is called `nspace` (`namespace` is reserved in Lean); absent
`labels`/`annotations` objects are modelled as empty lists (key lookup in both
is `undefined`/`none`). -/
structure V1ObjectMeta where
  name : Option Str
  nspace : Option Str
  labels : List (Str × Str)
  annotations : List (Str × Str)
  creationTimestamp : Option Str
deriving DecidableEq, Repr

/-- `V1Service`, reduced to `metadata` and the port numbers
`spec.ports[i].port` (the optional chain `spec?.ports?.[0]?.port` is the head
of this list). -/
structure V1Service where
  metadata : Option V1ObjectMeta
  ports : List Nat
deriving DecidableEq, Repr

/-- `V1Container`: `image` and the `containerPort` numbers of its `ports`. -/
structure V1Container where
  image : Option Str
  ports : List Nat
deriving DecidableEq, Repr

/-- `V1Deployment`, reduced to `metadata` and
`spec.template.spec.containers`. -/
structure V1Deployment where
  metadata : Option V1ObjectMeta
  containers : List V1Container
deriving DecidableEq, Repr

/-- `resolveInstanceId` from `src/instances.ts`:
`service?.metadata?.labels?.[instanceLabelKey] ?? deployment?.metadata?.labels?.[instanceLabelKey]`. -/
def resolveInstanceId (service : Option V1Service) (deployment : Option V1Deployment) :
    Option Str :=
  jsNn ((service.bind V1Service.metadata).bind (fun m => lookupAssoc m.labels instanceLabelKey))
    ((deployment.bind V1Deployment.metadata).bind
      (fun m => lookupAssoc m.labels instanceLabelKey))

/-- `resolveInstanceName`: the `radome.name` annotation of the service, else
of the deployment. -/
def resolveInstanceName (service : Option V1Service) (deployment : Option V1Deployment) :
    Option Str :=
  jsNn ((service.bind V1Service.metadata).bind
      (fun m => lookupAssoc m.annotations instanceNameAnnotation))
    ((deployment.bind V1Deployment.metadata).bind
      (fun m => lookupAssoc m.annotations instanceNameAnnotation))

/-- `resolveContainerPort`:
`service?.spec?.ports?.[0]?.port ?? deployment?.spec?.template?.spec?.containers?.[0]?.ports?.[0]?.containerPort ?? undefined`. -/
def resolveContainerPort (service : Option V1Service) (deployment : Option V1Deployment) :
    Option Nat :=
  jsNn (service.bind (fun s => s.ports.head?))
    (deployment.bind (fun d => d.containers.head?.bind (fun c => c.ports.head?)))

/-- `resolveImage`: `deployment?.spec?.template?.spec?.containers?.[0]?.image`. -/
def resolveImage (deployment : Option V1Deployment) : Option Str :=
  deployment.bind (fun d => d.containers.head?.bind V1Container.image)

/-- `` `radome-agent-${id}` ``. -/
def agentName (id : Str) : Str := (("radome-agent-").toList) ++ id

/-- The in-cluster DNS suffix `` `.svc.cluster.local` ``. -/
def svcClusterSuffix : Str := ((".svc.cluster.local").toList)

/-- `buildInstanceRecord` from `src/instances.ts`, with the module-level
`namespace` environment default passed as `ns0` and the impure
`new Date().toISOString()` fallback passed as `now`.  `!instanceId`,
`!containerPort` and `!image` are JavaScript falsiness tests, so the empty
string and port `0` are rejected like `null`. -/
def buildInstanceRecord (ns0 : Str) (service : Option V1Service)
    (deployment : Option V1Deployment) (now : Str) : Option InstanceRecord :=
  match resolveInstanceId service deployment with
  | none => none
  | some instanceId =>
    if instanceId = [] then none
    else
      let serviceName :=
        (jsNn ((service.bind V1Service.metadata).bind V1ObjectMeta.name)
          ((deployment.bind V1Deployment.metadata).bind V1ObjectMeta.name)).getD
          (agentName instanceId)
      let serviceNamespace :=
        (jsNn ((service.bind V1Service.metadata).bind V1ObjectMeta.nspace)
          ((deployment.bind V1Deployment.metadata).bind V1ObjectMeta.nspace)).getD ns0
      match resolveContainerPort service deployment with
      | none => none
      | some containerPort =>
        if containerPort = 0 then none
        else
          match resolveImage deployment with
          | none => none
          | some image =>
            if image = [] then none
            else
              some
                { id := instanceId
                  image := image
                  dockerHubUrl := image
                  containerPort := containerPort
                  nspace := serviceNamespace
                  deploymentName :=
                    ((deployment.bind V1Deployment.metadata).bind V1ObjectMeta.name).getD
                      (agentName instanceId)
                  serviceName := serviceName
                  serviceHost := serviceName ++ ['.'] ++ serviceNamespace ++ svcClusterSuffix
                  createdAt :=
                    (jsNn ((service.bind V1Service.metadata).bind V1ObjectMeta.creationTimestamp)
                      ((deployment.bind V1Deployment.metadata).bind
                        V1ObjectMeta.creationTimestamp)).getD now
                  status := .running
                  statusMessage := none
                  name := resolveInstanceName service deployment }

/-- Lookup in a JavaScript `Map<string, V>` modelled as an insertion-ordered
association list. -/
def dirGet {α : Type} (m : List (Str × α)) (k : Str) : Option α :=
  (m.find? (fun p => decide (p.1 = k))).map Prod.snd

/-- `Map.set`: update the existing slot in place, else append. -/
def dirSet {α : Type} (m : List (Str × α)) (k : Str) (v : α) : List (Str × α) :=
  if (m.find? (fun p => decide (p.1 = k))).isSome then
    m.map (fun p => if p.1 = k then (k, v) else p)
  else
    m ++ [(k, v)]

/-- The in-memory `instances` map. -/
abbrev Directory := List (Str × InstanceRecord)

/-- The `deploymentsById` map built by `syncInstancesFromCluster`: deployments
keyed by their (truthy) `radome.instance` label. -/
def buildDeploymentsById (deployments : List V1Deployment) : List (Str × V1Deployment) :=
  deployments.foldl
    (fun acc d =>
      match resolveInstanceId none (some d) with
      | some i => if i = [] then acc else dirSet acc i d
      | none => acc)
    []

/-- `syncInstancesFromCluster` from `src/instances.ts`: join the labelled
services with the labelled deployments by instance id, build the records, and
replace the whole map (`instances.clear()` followed by re-insertion), so the
previous directory contents `prev` are discarded. -/
def syncInstancesFromCluster (prev : Directory) (ns0 : Str) (services : List V1Service)
    (deployments : List V1Deployment) (now : Str) : Directory :=
  let deploymentsById := buildDeploymentsById deployments
  let next := services.foldl
    (fun acc svc =>
      match resolveInstanceId (some svc) none with
      | none => acc
      | some i =>
        if i = [] then acc
        else
          match buildInstanceRecord ns0 (some svc) (dirGet deploymentsById i) now with
          | none => acc
          | some r => dirSet acc i r)
    []
  next

/-- A Kubernetes client error; `statusCode` is the field `hydrateInstance`
inspects. -/
structure KubeErr where
  statusCode : Option Nat
deriving DecidableEq, Repr

/-- `hydrateInstance` from `src/instances.ts`: read the Service and Deployment
named `radome-agent-<id>`; on success build a record and insert it; a failure
whose `statusCode` is `404` yields `undefined` without touching the map; any
other failure is rethrown.  The two reads of the `Promise.all` are passed as
result-valued functions of the object name; when both reads fail, the service
read's rejection is taken first. -/
def hydrateInstance (ns0 : Str) (dir : Directory) (id : Str)
    (readService : Str → Except KubeErr V1Service)
    (readDeployment : Str → Except KubeErr V1Deployment) (now : Str) :
    Except KubeErr (Option InstanceRecord × Directory) :=
  let serviceName := agentName id
  let deploymentName := agentName id
  match readService serviceName, readDeployment deploymentName with
  | .ok svc, .ok dep =>
    match buildInstanceRecord ns0 (some svc) (some dep) now with
    | none => .ok (none, dir)
    | some r => .ok (some r, dirSet dir id r)
  | .error e, _ =>
    if e.statusCode = some 404 then .ok (none, dir) else .error e
  | .ok _, .error e =>
    if e.statusCode = some 404 then .ok (none, dir) else .error e

/-- `getInstanceOrLoad` from `src/instances.ts`: return the cached record if
present, else hydrate from the cluster. -/
def getInstanceOrLoad (ns0 : Str) (dir : Directory) (id : Str)
    (readService : Str → Except KubeErr V1Service)
    (readDeployment : Str → Except KubeErr V1Deployment) (now : Str) :
    Except KubeErr (Option InstanceRecord × Directory) :=
  match dirGet dir id with
  | some r => .ok (some r, dir)
  | none => hydrateInstance ns0 dir id readService readDeployment now

/-- The record built and inserted by `createInstance` (the variant whose new
records start in status `starting`), as a pure function of the generated uuid
`id`, the allowed image, the optional requested port and name, the module
namespace `ns0` and the creation instant `now`. -/
def createInstanceRecord (ns0 id : Str) (imageName imageDockerHubUrl : Str)
    (defaultPort : Nat) (containerPort? : Option Nat) (name? : Option Str)
    (now : Str) : InstanceRecord :=
  let containerPort := containerPort?.getD defaultPort
  let deploymentName := agentName id
  let serviceName := agentName id
  let serviceHost := serviceName ++ ['.'] ++ ns0 ++ svcClusterSuffix
  { id := id
    image := imageName
    dockerHubUrl := imageDockerHubUrl
    containerPort := containerPort
    nspace := ns0
    deploymentName := deploymentName
    serviceName := serviceName
    serviceHost := serviceHost
    createdAt := now
    status := .starting
    statusMessage := none
    name := name? }

theorem dirGet_dirSet_self {α : Type} (m : List (Str × α)) (k : Str) (v : α) :
    dirGet (dirSet m k v) k = some v := by
  unfold dirSet
  split
  case isTrue hf =>
    induction m with
    | nil => simp at hf
    | cons p t ih =>
      by_cases hp : p.1 = k
      · unfold dirGet
        rw [List.map_cons, if_pos hp, List.find?_cons_of_pos _ (by simp)]
        rfl
      · unfold dirGet
        rw [List.map_cons, if_neg hp,
          List.find?_cons_of_neg _ (by simp [hp])]
        have hf' : (t.find? (fun p => decide (p.1 = k))).isSome := by
          have := hf
          rw [List.find?_cons_of_neg _ (by simp [hp])] at this
          exact this
        exact ih hf'
  case isFalse hf =>
    induction m with
    | nil =>
      unfold dirGet
      rw [List.nil_append, List.find?_cons_of_pos _ (by simp)]
      rfl
    | cons p t ih =>
      by_cases hp : p.1 = k
      · exact absurd (by rw [List.find?_cons_of_pos _ (by simp [hp])]; rfl) hf
      · unfold dirGet
        rw [List.cons_append, List.find?_cons_of_neg _ (by simp [hp])]
        have hf' : ¬ (t.find? (fun p => decide (p.1 = k))).isSome := by
          intro hc
          apply hf
          rw [List.find?_cons_of_neg _ (by simp [hp])]
          exact hc
        exact ih hf'

theorem dirGet_dirSet_ne {α : Type} (m : List (Str × α)) (k : Str) (v : α) (k' : Str)
    (h : k' ≠ k) : dirGet (dirSet m k v) k' = dirGet m k' := by
  unfold dirSet
  split
  case isTrue hf =>
    clear hf
    induction m with
    | nil => rfl
    | cons p t ih =>
      by_cases hp : p.1 = k
      · unfold dirGet
        rw [List.map_cons, if_pos hp,
          List.find?_cons_of_neg _ (by simp; exact fun hh => h hh.symm),
          List.find?_cons_of_neg _ (by simp [hp]; intro hh; exact h hh.symm)]
        exact ih
      · unfold dirGet
        rw [List.map_cons, if_neg hp]
        by_cases hp' : p.1 = k'
        · rw [List.find?_cons_of_pos _ (by simp [hp']),
            List.find?_cons_of_pos _ (by simp [hp'])]
        · rw [List.find?_cons_of_neg _ (by simp [hp']),
            List.find?_cons_of_neg _ (by simp [hp'])]
          exact ih
  case isFalse hf =>
    clear hf
    induction m with
    | nil =>
      unfold dirGet
      rw [List.nil_append, List.find?_cons_of_neg _ (by simp; exact fun hh => h hh.symm)]
    | cons p t ih =>
      unfold dirGet
      by_cases hp' : p.1 = k'
      · rw [List.cons_append, List.find?_cons_of_pos _ (by simp [hp']),
          List.find?_cons_of_pos _ (by simp [hp'])]
      · rw [List.cons_append, List.find?_cons_of_neg _ (by simp [hp']),
          List.find?_cons_of_neg _ (by simp [hp'])]
        exact ih

theorem buildInstanceRecord_now_indep (ns0 : Str) (svc : V1Service)
    (dep : Option V1Deployment) (now1 now2 : Str)
    (h : svc.metadata.bind V1ObjectMeta.creationTimestamp = some ts) :
    buildInstanceRecord ns0 (some svc) dep now1
      = buildInstanceRecord ns0 (some svc) dep now2 := by
  have hred : jsNn (((some svc).bind V1Service.metadata).bind V1ObjectMeta.creationTimestamp)
      ((dep.bind V1Deployment.metadata).bind V1ObjectMeta.creationTimestamp) = some ts := by
    simp [jsNn]
    split
    case h_1 heq => rw [← heq]; simpa using h
    case h_2 heq => simp [heq] at h  -- contradicts h
  simp only [buildInstanceRecord, hred, Option.getD_some]

theorem syncFold_get_none (ns0 now : Str) (dById : List (Str × V1Deployment))
    (l : List V1Service) (init : Directory) (id : Str)
    (hno : ∀ svc ∈ l, resolveInstanceId (some svc) none ≠ some id)
    (hinit : dirGet init id = none) :
    dirGet (l.foldl
      (fun acc svc =>
        match resolveInstanceId (some svc) none with
        | none => acc
        | some i =>
          if i = [] then acc
          else
            match buildInstanceRecord ns0 (some svc) (dirGet dById i) now with
            | none => acc
            | some r => dirSet acc i r)
      init) id = none := by
  induction l generalizing init with
  | nil => exact hinit
  | cons svc t ih =>
    rw [List.foldl_cons]
    apply ih
    · exact fun s hs => hno s (by simp [hs])
    cases hres : resolveInstanceId (some svc) none with
    | none => simpa [hres] using hinit
    | some i =>
      by_cases hi : i = []
      · simpa [hres, hi] using hinit
      · cases hbr : buildInstanceRecord ns0 (some svc) (dirGet dById i) now with
        | none => simpa [hres, hi, hbr] using hinit
        | some r =>
          have hne : id ≠ i := by
            intro hh
            exact hno svc (by simp) (by rw [hres, hh])
          simp only [hres, hi, hbr, if_false]
          rw [dirGet_dirSet_ne _ _ _ _ hne]
          exact hinit

theorem syncFold_get_some (ns0 now : Str) (dById : List (Str × V1Deployment))
    (l : List V1Service) (init : Directory) (id : Str) (r : InstanceRecord)
    (h : dirGet (l.foldl
      (fun acc svc =>
        match resolveInstanceId (some svc) none with
        | none => acc
        | some i =>
          if i = [] then acc
          else
            match buildInstanceRecord ns0 (some svc) (dirGet dById i) now with
            | none => acc
            | some r => dirSet acc i r)
      init) id = some r) :
    dirGet init id = some r ∨
      ∃ svc ∈ l, resolveInstanceId (some svc) none = some id ∧ id ≠ [] ∧
        buildInstanceRecord ns0 (some svc) (dirGet dById id) now = some r := by
  induction l generalizing init with
  | nil => exact Or.inl h
  | cons svc t ih =>
    rw [List.foldl_cons] at h
    rcases ih _ h with hinit | ⟨s, hs, rest⟩
    · cases hres : resolveInstanceId (some svc) none with
      | none => exact Or.inl (by simpa [hres] using hinit)
      | some i =>
        by_cases hi : i = []
        · exact Or.inl (by simpa [hres, hi] using hinit)
        · cases hbr : buildInstanceRecord ns0 (some svc) (dirGet dById i) now with
          | none => exact Or.inl (by simpa [hres, hi, hbr] using hinit)
          | some r' =>
            simp only [hres, hi, hbr, if_false] at hinit
            by_cases hid : id = i
            · have hinit' := hinit
              rw [hid] at hinit'
              rw [dirGet_dirSet_self] at hinit'
              have hrr : r' = r := Option.some.inj hinit'
              refine Or.inr ⟨svc, by simp, ?_, ?_, ?_⟩
              · rw [hid]; exact hres
              · rw [hid]; exact hi
              · rw [hid, hbr, hrr]
            · rw [dirGet_dirSet_ne _ _ _ _ hid] at hinit
              exact Or.inl hinit
    · exact Or.inr ⟨s, by simp [hs], rest⟩

theorem syncFold_isSome_mono (ns0 now : Str) (dById : List (Str × V1Deployment))
    (l : List V1Service) (init : Directory) (id : Str)
    (h : (dirGet init id).isSome = true) :
    (dirGet (l.foldl
      (fun acc svc =>
        match resolveInstanceId (some svc) none with
        | none => acc
        | some i =>
          if i = [] then acc
          else
            match buildInstanceRecord ns0 (some svc) (dirGet dById i) now with
            | none => acc
            | some r => dirSet acc i r)
      init) id).isSome = true := by
  induction l generalizing init with
  | nil => exact h
  | cons svc t ih =>
    rw [List.foldl_cons]
    apply ih
    cases hres : resolveInstanceId (some svc) none with
    | none => simpa [hres] using h
    | some i =>
      by_cases hi : i = []
      · simpa [hres, hi] using h
      · cases hbr : buildInstanceRecord ns0 (some svc) (dirGet dById i) now with
        | none => simpa [hres, hi, hbr] using h
        | some r =>
          simp only [hres, hi, hbr, if_false]
          by_cases hid : id = i
          · rw [hid, dirGet_dirSet_self]
            rfl
          · rw [dirGet_dirSet_ne _ _ _ _ hid]
            exact h

theorem syncFold_sets (ns0 now : Str) (dById : List (Str × V1Deployment))
    (l : List V1Service) (init : Directory) (id : Str) (r : InstanceRecord)
    (svc : V1Service) (hmem : svc ∈ l)
    (hres : resolveInstanceId (some svc) none = some id) (hid : id ≠ [])
    (hbr : buildInstanceRecord ns0 (some svc) (dirGet dById id) now = some r) :
    (dirGet (l.foldl
      (fun acc svc =>
        match resolveInstanceId (some svc) none with
        | none => acc
        | some i =>
          if i = [] then acc
          else
            match buildInstanceRecord ns0 (some svc) (dirGet dById i) now with
            | none => acc
            | some r => dirSet acc i r)
      init) id).isSome = true := by
  induction l generalizing init with
  | nil => simp at hmem
  | cons h t ih =>
    rw [List.foldl_cons]
    rcases List.mem_cons.mp hmem with heq | hmem'
    · apply syncFold_isSome_mono
      rw [← heq]
      simp only [hres, hid, hbr, if_false]
      rw [dirGet_dirSet_self]
      rfl
    · exact ih _ hmem'

theorem syncFold_get_complete (ns0 now : Str) (dById : List (Str × V1Deployment))
    (l : List V1Service) (init : Directory) (id : Str) (r : InstanceRecord)
    (hall : ∀ svc ∈ l, resolveInstanceId (some svc) none = some id →
        buildInstanceRecord ns0 (some svc) (dirGet dById id) now = some r)
    (hid : id ≠ [])
    (hex : (∃ svc ∈ l, resolveInstanceId (some svc) none = some id)
        ∨ dirGet init id = some r) :
    dirGet (l.foldl
      (fun acc svc =>
        match resolveInstanceId (some svc) none with
        | none => acc
        | some i =>
          if i = [] then acc
          else
            match buildInstanceRecord ns0 (some svc) (dirGet dById i) now with
            | none => acc
            | some r => dirSet acc i r)
      init) id = some r := by
  induction l generalizing init with
  | nil =>
    rcases hex with ⟨svc, hmem, _⟩ | h
    · simp at hmem
    · exact h
  | cons h t ih =>
    rw [List.foldl_cons]
    cases hres : resolveInstanceId (some h) none with
    | none =>
      apply ih
      · exact fun s hs hl => hall s (by simp [hs]) hl
      rcases hex with ⟨svc, hmem, hl⟩ | hinit
      · rcases List.mem_cons.mp hmem with heq | hmem'
        · rw [heq, hres] at hl
          exact absurd hl (by simp)
        · exact Or.inl ⟨svc, hmem', hl⟩
      · right
        simpa [hres] using hinit
    | some i =>
      by_cases hieq : i = id
      · subst hieq
        have hb := hall h (by simp) hres
        apply ih
        · exact fun s hs hl => hall s (by simp [hs]) hl
        right
        simp only [hres, hid, hb, if_false]
        exact dirGet_dirSet_self _ _ _
      · apply ih
        · exact fun s hs hl => hall s (by simp [hs]) hl
        rcases hex with ⟨svc, hmem, hl⟩ | hinit
        · rcases List.mem_cons.mp hmem with heq | hmem'
          · exfalso
            rw [heq, hres] at hl
            exact hieq (Option.some.inj hl)
          · exact Or.inl ⟨svc, hmem', hl⟩
        · right
          by_cases hi : i = []
          · simpa [hres, hi] using hinit
          · cases hbr : buildInstanceRecord ns0 (some h) (dirGet dById i) now with
            | none => simpa [hres, hi, hbr] using hinit
            | some r' =>
              simp only [hres, hi, hbr, if_false]
              rw [dirGet_dirSet_ne _ _ _ _ (fun hh => hieq hh.symm)]
              exact hinit

/-- A labelled Service without a `creationTimestamp` (fields: name, namespace,
labels, annotations, creationTimestamp; then the service port list). -/
def svcNoTs : V1Service :=
  ⟨some ⟨some (("radome-agent-x").toList), some (("default").toList),
    [(instanceLabelKey, ("x").toList)], [], none⟩, [80]⟩

/-- The same Service carrying `creationTimestamp` `ts0`. -/
def svcWithTs : V1Service :=
  ⟨some ⟨some (("radome-agent-x").toList), some (("default").toList),
    [(instanceLabelKey, ("x").toList)], [], some (("ts0").toList)⟩, [80]⟩

/-- A labelled Deployment for instance `x` with one container. -/
def depX : V1Deployment :=
  ⟨some ⟨some (("radome-agent-x").toList), some (("default").toList),
    [(instanceLabelKey, ("x").toList)], [], none⟩,
    [⟨some (("img").toList), [80]⟩]⟩

/-- The record `buildInstanceRecord` produces from `svcWithTs` and `depX`. -/
def recX : InstanceRecord :=
  { id := ("x").toList
    image := ("img").toList
    dockerHubUrl := ("img").toList
    containerPort := 80
    nspace := ("default").toList
    deploymentName := ("radome-agent-x").toList
    serviceName := ("radome-agent-x").toList
    serviceHost := ("radome-agent-x.default.svc.cluster.local").toList
    createdAt := ("ts0").toList
    status := .running
    statusMessage := none
    name := none }

/-- C7 counterexample: a labelled Service with no `creationTimestamp` makes
`buildInstanceRecord` stamp `createdAt` with the wall clock
(`new Date().toISOString()`), so syncing the unchanged cluster lists a second
time at a later instant yields a different directory snapshot. -/
theorem syncInstancesFromCluster_cex :
    syncInstancesFromCluster
        (syncInstancesFromCluster [] (("default").toList) [svcNoTs] [depX] (("t1").toList))
        (("default").toList) [svcNoTs] [depX] (("t2").toList)
      ≠ syncInstancesFromCluster [] (("default").toList) [svcNoTs] [depX] (("t1").toList) := by
  decide

/-- C7 (amended): provided every labelled Service carries a
`creationTimestamp`, re-syncing unchanged cluster lists yields an identical
directory snapshot, independent of the previous directory contents and of the
wall clock.  After any sync the directory holds exactly one entry per labelled
Service joined with its Deployment by id: an id with no labelled Service is
absent; any entry is the record built from a labelled Service and the
deployment map; every labelled Service whose join succeeds contributes an
entry for its id; and when every labelled Service for an id builds the same
record, the entry is exactly that record. -/
theorem syncInstancesFromCluster_spec (ns0 : Str) (services : List V1Service)
    (deployments : List V1Deployment) :
    ((∀ svc ∈ services, svc.metadata.bind V1ObjectMeta.creationTimestamp ≠ none) →
      ∀ (prev prev' : Directory) (now now' : Str),
        syncInstancesFromCluster prev ns0 services deployments now
          = syncInstancesFromCluster prev' ns0 services deployments now')
    ∧ (∀ (prev : Directory) (now id : Str),
        (¬ ∃ svc ∈ services, resolveInstanceId (some svc) none = some id) →
        dirGet (syncInstancesFromCluster prev ns0 services deployments now) id = none)
    ∧ (∀ (prev : Directory) (now id : Str) (r : InstanceRecord),
        dirGet (syncInstancesFromCluster prev ns0 services deployments now) id = some r →
        ∃ svc ∈ services, resolveInstanceId (some svc) none = some id ∧ id ≠ [] ∧
          buildInstanceRecord ns0 (some svc)
            (dirGet (buildDeploymentsById deployments) id) now = some r)
    ∧ (∀ (prev : Directory) (now id : Str) (r : InstanceRecord) (svc : V1Service),
        svc ∈ services → resolveInstanceId (some svc) none = some id → id ≠ [] →
        buildInstanceRecord ns0 (some svc)
          (dirGet (buildDeploymentsById deployments) id) now = some r →
        (dirGet (syncInstancesFromCluster prev ns0 services deployments now) id).isSome
          = true)
    ∧ (∀ (prev : Directory) (now id : Str) (r : InstanceRecord),
        (∃ svc ∈ services, resolveInstanceId (some svc) none = some id) → id ≠ [] →
        (∀ svc ∈ services, resolveInstanceId (some svc) none = some id →
          buildInstanceRecord ns0 (some svc)
            (dirGet (buildDeploymentsById deployments) id) now = some r) →
        dirGet (syncInstancesFromCluster prev ns0 services deployments now) id = some r) := by
  refine ⟨?_, ?_, ?_, ?_, ?_⟩
  · intro hts prev prev' now now'
    simp only [syncInstancesFromCluster]
    apply List.foldl_ext
    intro acc svc hsvc
    obtain ⟨ts, hts'⟩ := Option.ne_none_iff_exists'.mp (hts svc hsvc)
    have hbi := buildInstanceRecord_now_indep ns0 svc
      (dirGet (buildDeploymentsById deployments)
        ((resolveInstanceId (some svc) none).getD [])) now now' hts'
    cases hres : resolveInstanceId (some svc) none with
    | none => simp [hres]
    | some i =>
      by_cases hi : i = []
      · simp [hres, hi]
      · have hbi' := buildInstanceRecord_now_indep ns0 svc
          (dirGet (buildDeploymentsById deployments) i) now now' hts'
        simp [hres, hi, hbi']
  · intro prev now id hno
    simp only [syncInstancesFromCluster]
    apply syncFold_get_none
    · intro svc hsvc hcon
      exact hno ⟨svc, hsvc, hcon⟩
    · rfl
  · intro prev now id r h
    simp only [syncInstancesFromCluster] at h
    rcases syncFold_get_some _ _ _ _ _ _ _ h with h0 | hex
    · simp [dirGet] at h0
    · exact hex
  · intro prev now id r svc hmem hres hid hbr
    simp only [syncInstancesFromCluster]
    exact syncFold_sets _ _ _ _ _ _ r svc hmem hres hid hbr
  · intro prev now id r hx hid hall
    simp only [syncInstancesFromCluster]
    exact syncFold_get_complete _ _ _ _ _ _ _ hall hid (Or.inl hx)

/-- Witness for `syncInstancesFromCluster_spec`: with a timestamped Service,
syncing twice at different instants gives the same snapshot, and the joined
Service yields exactly its built record. -/
theorem syncInstancesFromCluster_spec_witness :
    (syncInstancesFromCluster
        (syncInstancesFromCluster [] (("default").toList) [svcWithTs] [depX] (("t1").toList))
        (("default").toList) [svcWithTs] [depX] (("t2").toList)
      = syncInstancesFromCluster [] (("default").toList) [svcWithTs] [depX] (("t1").toList))
    ∧ dirGet (syncInstancesFromCluster [] (("default").toList) [svcWithTs] [depX]
        (("ts1").toList)) (("x").toList) = some recX :=
  ⟨(syncInstancesFromCluster_spec (("default").toList) [svcWithTs] [depX]).1
    (by decide)
    (syncInstancesFromCluster [] (("default").toList) [svcWithTs] [depX] (("t1").toList))
    [] (("t2").toList) (("t1").toList),
   (syncInstancesFromCluster_spec (("default").toList) [svcWithTs] [depX]).2.2.2.2
    [] (("ts1").toList) (("x").toList) recX
    ⟨svcWithTs, by decide, by decide⟩ (by decide) (by decide)⟩

/-- C8: `getInstanceOrLoad` returns the cached record when the directory
contains the id; on a miss it reads the Service and Deployment named
`radome-agent-<id>`, and a 404 from either read yields absence (`none`)
without an error and without touching the directory. -/
theorem getInstanceOrLoad_spec (ns0 : Str) (dir : Directory) (id : Str)
    (readService : Str → Except KubeErr V1Service)
    (readDeployment : Str → Except KubeErr V1Deployment) (now : Str) :
    (∀ r : InstanceRecord, dirGet dir id = some r →
      getInstanceOrLoad ns0 dir id readService readDeployment now = .ok (some r, dir))
    ∧ (dirGet dir id = none →
        ∀ e : KubeErr, readService (agentName id) = .error e → e.statusCode = some 404 →
        getInstanceOrLoad ns0 dir id readService readDeployment now = .ok (none, dir))
    ∧ (dirGet dir id = none →
        ∀ (svc : V1Service) (e : KubeErr), readService (agentName id) = .ok svc →
          readDeployment (agentName id) = .error e → e.statusCode = some 404 →
          getInstanceOrLoad ns0 dir id readService readDeployment now = .ok (none, dir)) := by
  refine ⟨?_, ?_, ?_⟩
  · intro r hr
    simp [getInstanceOrLoad, hr]
  · intro hmiss e hsvc h404
    simp only [getInstanceOrLoad, hmiss]
    simp only [hydrateInstance, hsvc]
    cases hdep : readDeployment (agentName id) with
    | ok dep => simp [h404]
    | error e' => simp [h404]
  · intro hmiss svc e hsvc hdep h404
    simp only [getInstanceOrLoad, hmiss]
    simp only [hydrateInstance, hsvc, hdep]
    simp [h404]

/-- A record for instance id `a`, as cached in the directory. -/
def recA : InstanceRecord :=
  createInstanceRecord (("default").toList) (("a").toList) (("img").toList)
    (("hub").toList) 80 none none (("t0").toList)

/-- Witness for `getInstanceOrLoad_spec`: a cache hit, and a miss whose
cluster reads fail with 404. -/
theorem getInstanceOrLoad_spec_witness :
    getInstanceOrLoad (("default").toList) [((("a").toList), recA)] (("a").toList)
        (fun _ => .error ⟨some 404⟩) (fun _ => .error ⟨some 404⟩) (("t1").toList)
      = .ok (some recA, [((("a").toList), recA)])
    ∧ getInstanceOrLoad (("default").toList) [] (("b").toList)
        (fun _ => .error ⟨some 404⟩) (fun _ => .error ⟨some 404⟩) (("t1").toList)
      = .ok (none, []) := by
  constructor
  · exact (getInstanceOrLoad_spec (("default").toList) [((("a").toList), recA)]
      (("a").toList) (fun _ => .error ⟨some 404⟩) (fun _ => .error ⟨some 404⟩)
      (("t1").toList)).1 recA (by decide)
  · exact (getInstanceOrLoad_spec (("default").toList) [] (("b").toList)
      (fun _ => .error ⟨some 404⟩) (fun _ => .error ⟨some 404⟩) (("t1").toList)).2.1
      (by decide) ⟨some 404⟩ rfl (by decide)

/-- A Service labelled `radome.instance=x` but named `spoof` rather than the
conventional `radome-agent-x`. -/
def svcSpoof : V1Service :=
  ⟨some ⟨some (("spoof").toList), some (("default").toList),
    [(instanceLabelKey, ("x").toList)], [], some (("ts0").toList)⟩, [80]⟩

/-- C10 counterexample: a sync over a labelled Service named `spoof` puts a
record into the directory whose `serviceName` is the object's actual name, not
`radome-agent-<id>`, so the naming invariant fails for cluster-built
records. -/
theorem instanceRecord_naming_cex :
    ((dirGet (syncInstancesFromCluster [] (("default").toList) [svcSpoof] [depX]
        (("ts0").toList)) (("x").toList)).map
      (fun r => decide (r.serviceName = agentName r.id))) = some false := by
  decide

theorem optionGetD_eq_self_iff (o : Option Str) (d : Str) :
    o.getD d = d ↔ o = none ∨ o = some d := by
  cases o <;> simp

/-- C10 (amended): records built by `createInstance` always satisfy
`deploymentName = serviceName = radome-agent-<id>` and the `serviceHost`
equation; every record built from cluster objects satisfies the
`serviceHost` equation, takes its names from the objects' `metadata.name`
(defaulting to `radome-agent-<id>` when absent), and hence satisfies the
naming equation exactly when each relevant object name is absent or equal to
`radome-agent-<id>` — in particular whenever the Service and Deployment carry
their conventional names. -/
theorem instanceRecord_naming_invariant :
    (∀ (ns0 id imageName hub : Str) (defaultPort : Nat) (port? : Option Nat)
        (name? : Option Str) (now : Str),
      (createInstanceRecord ns0 id imageName hub defaultPort port? name? now).deploymentName
          = agentName id
        ∧ (createInstanceRecord ns0 id imageName hub defaultPort port? name? now).serviceName
          = agentName id
        ∧ (createInstanceRecord ns0 id imageName hub defaultPort port? name? now).serviceHost
          = (createInstanceRecord ns0 id imageName hub defaultPort port? name? now).serviceName
            ++ ['.']
            ++ (createInstanceRecord ns0 id imageName hub defaultPort port? name? now).nspace
            ++ svcClusterSuffix
        ∧ (createInstanceRecord ns0 id imageName hub defaultPort port? name? now).id = id)
    ∧ (∀ (ns0 : Str) (service : Option V1Service) (deployment : Option V1Deployment)
        (now : Str) (r : InstanceRecord),
        buildInstanceRecord ns0 service deployment now = some r →
        r.serviceHost = r.serviceName ++ ['.'] ++ r.nspace ++ svcClusterSuffix)
    ∧ (∀ (ns0 : Str) (service : Option V1Service) (deployment : Option V1Deployment)
        (now : Str) (r : InstanceRecord),
        buildInstanceRecord ns0 service deployment now = some r →
        (service.bind V1Service.metadata).bind V1ObjectMeta.name = some (agentName r.id) →
        (deployment.bind V1Deployment.metadata).bind V1ObjectMeta.name
          = some (agentName r.id) →
        r.serviceName = agentName r.id ∧ r.deploymentName = agentName r.id)
    ∧ (∀ (ns0 : Str) (service : Option V1Service) (deployment : Option V1Deployment)
        (now : Str) (r : InstanceRecord),
        buildInstanceRecord ns0 service deployment now = some r →
        (r.serviceName = agentName r.id ↔
          jsNn ((service.bind V1Service.metadata).bind V1ObjectMeta.name)
              ((deployment.bind V1Deployment.metadata).bind V1ObjectMeta.name) = none
          ∨ jsNn ((service.bind V1Service.metadata).bind V1ObjectMeta.name)
              ((deployment.bind V1Deployment.metadata).bind V1ObjectMeta.name)
            = some (agentName r.id))
        ∧ (r.deploymentName = agentName r.id ↔
          (deployment.bind V1Deployment.metadata).bind V1ObjectMeta.name = none
          ∨ (deployment.bind V1Deployment.metadata).bind V1ObjectMeta.name
            = some (agentName r.id))) := by
  refine ⟨?_, ?_, ?_, ?_⟩
  · intro ns0 id imageName hub defaultPort port? name? now
    exact ⟨rfl, rfl, rfl, rfl⟩
  · intro ns0 service deployment now r h
    simp only [buildInstanceRecord] at h
    repeat' split at h
    all_goals try exact Option.noConfusion h
    all_goals obtain rfl := Option.some.inj h
    all_goals rfl
  · intro ns0 service deployment now r h hsname hdname
    simp only [buildInstanceRecord] at h
    repeat' split at h
    all_goals try exact Option.noConfusion h
    all_goals obtain rfl := Option.some.inj h
    all_goals simp only [] at hsname hdname ⊢
    all_goals rw [hsname, hdname]
    all_goals exact ⟨by simp [jsNn], by simp⟩
  · intro ns0 service deployment now r h
    simp only [buildInstanceRecord] at h
    repeat' split at h
    all_goals try exact Option.noConfusion h
    all_goals obtain rfl := Option.some.inj h
    all_goals simp only []
    all_goals exact ⟨optionGetD_eq_self_iff _ _, optionGetD_eq_self_iff _ _⟩

/-- Witness for `instanceRecord_naming_invariant`: a created record, a
conventionally named cluster pair, and the name characterization at that
pair. -/
theorem instanceRecord_naming_invariant_witness :
    (createInstanceRecord (("default").toList) (("a").toList) (("img").toList)
        (("hub").toList) 80 none none (("t0").toList)).deploymentName
      = agentName (("a").toList)
    ∧ (recX.serviceName = agentName recX.id ∧ recX.deploymentName = agentName recX.id)
    ∧ (recX.deploymentName = agentName recX.id ↔
        ((some depX).bind V1Deployment.metadata).bind V1ObjectMeta.name = none
        ∨ ((some depX).bind V1Deployment.metadata).bind V1ObjectMeta.name
          = some (agentName recX.id)) :=
  ⟨(instanceRecord_naming_invariant.1 (("default").toList) (("a").toList)
      (("img").toList) (("hub").toList) 80 none none (("t0").toList)).1,
    instanceRecord_naming_invariant.2.2.1 (("default").toList) (some svcWithTs)
      (some depX) (("ts0").toList) recX (by decide) (by decide) (by decide),
    (instanceRecord_naming_invariant.2.2.2 (("default").toList) (some svcWithTs)
      (some depX) (("ts0").toList) recX (by decide)).2⟩
